import Mathlib

/-!
Shallow embedding of the water-quality monitoring backend
(`backend/app.py`, `backend/config.py`, `backend/email_service.py`).

Modelling conventions:
* Python floats are modelled as rationals (`ℚ`); no claim depends on
  floating-point rounding.
* An incoming sensor mapping (decoded JSON object) is an association list
  from field name to `RawValue`.  Values on which Python's `float` succeeds
  (numbers and numeric strings) are modelled as `RawValue.num` carrying the
  parsed value; `RawValue.str` holds values on which `float` raises.
* External effects (ML model call, email send, MongoDB insert, socket emit)
  are modelled by outcome parameters consulted exactly where the source
  performs the call; the record returned by the pipeline embedding reports
  which effects were invoked and with what payload.
* The module-level global `last_prediction` in `app.py` is written by
  `handle_consecutive_contamination` but never read anywhere in the
  repository, so it is omitted from the tracker state.
-/

namespace WaterQuality

/-- A raw value of a field in an incoming sensor mapping.  `num q` stands
for any Python value on which `float` succeeds with result `q`; `str s`
stands for a value on which `float` raises (e.g. a non-numeric string). -/
inductive RawValue where
  | num (q : ℚ)
  | str (s : String)
deriving DecidableEq, Repr

/-- An incoming sensor mapping: association list field name → raw value. -/
abbrev RawReading := List (String × RawValue)

/-- Python `float(value)`: `some` the numeric value, `none` when it raises. -/
def floatOf : RawValue → Option ℚ
  | .num q => some q
  | .str _ => none

/-- Embeds `float(data.get(key, dflt))` where `dflt` is a numeric literal: an
absent key yields the default, a present non-numeric value raises. -/
def getFloat (data : RawReading) (key : String) (dflt : ℚ) : Except Unit ℚ :=
  match data.lookup key with
  | none => .ok dflt
  | some rv =>
    match floatOf rv with
    | some q => .ok q
    | none => .error ()

/-- Apply `getFloat` to a list of (field, default) pairs, propagating the
first failure (the whole feature/record construction raises). -/
def getFloats (data : RawReading) : List (String × ℚ) → Except Unit (List (String × ℚ))
  | [] => .ok []
  | nd :: rest =>
    match getFloat data nd.1 nd.2 with
    | .error e => .error e
    | .ok v =>
      match getFloats data rest with
      | .error e => .error e
      | .ok vs => .ok ((nd.1, v) :: vs)

/-- The six feature fields with the defaults used in `predict_water_quality`
(`app.py` lines 84-89): `data.get('pH', 7.0)`, `data.get('Sulphate', 250)`,
`data.get('Hardness', 165)`, `data.get('Conductivity', 500)`,
`data.get('TDS', 600)`, `data.get('Turbidity', 3.0)`. -/
def featureDefaults : List (String × ℚ) :=
  [("pH", 7), ("Sulphate", 250), ("Hardness", 165),
   ("Conductivity", 500), ("TDS", 600), ("Turbidity", 3)]

/-- The six record fields with the defaults used for the MongoDB document in
`process_sensor_data` (`app.py` lines 181-186): every `sensor_data.get(name, 0)`. -/
def docDefaults : List (String × ℚ) :=
  [("pH", 0), ("Sulphate", 0), ("Hardness", 0),
   ("Conductivity", 0), ("TDS", 0), ("Turbidity", 0)]

/-- The named feature values the classifier adapter reads from a reading. -/
def mlParams (data : RawReading) : Except Unit (List (String × ℚ)) :=
  getFloats data featureDefaults

/-- The named parameter values the persisted document reads from a reading. -/
def docParams (data : RawReading) : Except Unit (List (String × ℚ)) :=
  getFloats data docDefaults

/-- The feature vector handed to the ML model, in the source's fixed order. -/
def extractFeatures (data : RawReading) : Except Unit (List ℚ) :=
  match mlParams data with
  | .error e => .error e
  | .ok ps => .ok (ps.map Prod.snd)

/-- The loaded ML model, abstracted: `model.predict(features)[0]` together
with `model.predict_proba(features)[0]`; `.error` when either call raises. -/
abbrev ModelFn := List ℚ → Except Unit (ℤ × List ℚ)

/-- Python `max(probabilities)`: raises on an empty list. -/
def listMax : List ℚ → Except Unit ℚ
  | [] => .error ()
  | x :: xs => .ok (xs.foldl max x)

/-- The body of the `try` block of `predict_water_quality`: feature
extraction, model invocation, confidence computation. -/
def predictCore (m : ModelFn) (data : RawReading) : Except Unit (ℤ × ℚ) :=
  match extractFeatures data with
  | .error e => .error e
  | .ok fs =>
    match m fs with
    | .error e => .error e
    | .ok pr =>
      match listMax pr.2 with
      | .error e => .error e
      | .ok mx => .ok (pr.1, mx * 100)

/-- Embeds `predict_water_quality` (`app.py` lines 74-99): returns `(0, 0.0)` when
the model is not loaded, and the same fail-safe default when any step of the
`try` block raises. -/
def predict_water_quality (model : Option ModelFn) (data : RawReading) : ℤ × ℚ :=
  match model with
  | none => (0, 0)
  | some m =>
    match predictCore m data with
    | .ok r => r
    | .error _ => (0, 0)

/-- Embeds the label string of `app.py` line 201: Safe for prediction 1, Unsafe otherwise. -/
def labelOf (pred : ℤ) : String :=
  if pred = 1 then "Safe" else "Unsafe"

/-- Embeds `config.SAFE_RANGES` (`config.py` lines 33-40). -/
def SAFE_RANGES : List (String × ℚ × ℚ) :=
  [("pH", 6.5, 8.5), ("Sulphate", 100, 400), ("Hardness", 80, 250),
   ("Conductivity", 200, 800), ("TDS", 200, 1000), ("Turbidity", 1.5, 5.0)]

/-- One entry of the threshold-check result (`app.py` lines 112-117). -/
structure Verdict where
  value : ℚ
  safe_min : ℚ
  safe_max : ℚ
  is_safe : Bool
deriving DecidableEq, Repr

/-- The loop body of `check_thresholds` (`app.py` lines 106-119) for one
`(param, value)` item: a field contributes a verdict only when it has a
configured safe range and is not `timestamp`; a value on which `float`
raises is silently skipped (`except: pass`);
`is_safe = safe_min <= val <= safe_max`. -/
def thresholdEntry (pv : String × RawValue) : Option (String × Verdict) :=
  match SAFE_RANGES.lookup pv.1 with
  | none => none
  | some r =>
    if pv.1 = "timestamp" then none
    else
      match floatOf pv.2 with
      | none => none
      | some v => some (pv.1, ⟨v, r.1, r.2, decide (r.1 ≤ v ∧ v ≤ r.2)⟩)

/-- Embeds `check_thresholds` (`app.py` lines 101-121): iterate over the incoming
mapping, collecting the per-parameter verdicts. -/
def check_thresholds (data : RawReading) : List (String × Verdict) :=
  data.filterMap thresholdEntry

/-- Embeds `config.CONSECUTIVE_CONTAMINATION_THRESHOLD` (`config.py` line 30). -/
def CONSECUTIVE_CONTAMINATION_THRESHOLD : ℕ := 5

/-- The module-level contamination tracking state of `app.py`
(`consecutive_contamination_count`, `email_alert_sent`). -/
structure TrackerState where
  count : ℕ
  alertArmed : Bool
deriving DecidableEq, Repr

/-- The state at server start (`app.py` lines 71-73). -/
def initialState : TrackerState := ⟨0, false⟩

/-- One execution of `handle_consecutive_contamination` (`app.py` lines
123-162).  `t` is the configured threshold, `cfg` whether `email_service`
is not `None`, `d` the boolean returned by
`email_service.send_contamination_alert` if it is called.  Returns the new
state and whether the dispatcher was invoked. -/
def handleStep (t : ℕ) (cfg : Bool) (s : TrackerState) (pred : ℤ) (d : Bool) :
    TrackerState × Bool :=
  if pred = 0 then
    if t ≤ s.count + 1 ∧ s.alertArmed = false ∧ cfg = true then
      (⟨s.count + 1, if d then true else s.alertArmed⟩, true)
    else
      (⟨s.count + 1, s.alertArmed⟩, false)
  else
    (⟨0, false⟩, false)

/-- Process a list of readings, abstracted to their (prediction, dispatch
outcome) pairs, returning the final tracker state. -/
def runTracker (t : ℕ) (cfg : Bool) (s : TrackerState) : List (ℤ × Bool) → TrackerState
  | [] => s
  | pd :: rest => runTracker t cfg (handleStep t cfg s pd.1 pd.2).1 rest

/-- Like `runTracker` but recording, per reading, the post-state and whether
the dispatcher was invoked at that reading. -/
def runTrace (t : ℕ) (cfg : Bool) (s : TrackerState) :
    List (ℤ × Bool) → List (TrackerState × Bool)
  | [] => []
  | pd :: rest =>
    handleStep t cfg s pd.1 pd.2 ::
      runTrace t cfg (handleStep t cfg s pd.1 pd.2).1 rest

/-- Trailing-streak accumulator: length of the maximal suffix of `0`
(Unsafe) predictions, starting from a prior streak of `k`. -/
def streakAux (k : ℕ) (ps : List ℤ) : ℕ :=
  ps.foldl (fun c p => if p = 0 then c + 1 else 0) k

/-- Length of the contiguous Unsafe streak at the end of `ps`. -/
def streakAfter (ps : List ℤ) : ℕ := streakAux 0 ps

/-- Python `round(x)` on an exact value: round half to even. -/
def roundHalfEven (x : ℚ) : ℤ :=
  if x - ⌊x⌋ < 1 / 2 then ⌊x⌋
  else if 1 / 2 < x - ⌊x⌋ then ⌊x⌋ + 1
  else if 2 ∣ ⌊x⌋ then ⌊x⌋ else ⌊x⌋ + 1

/-- Python `round(confidence, 2)` (`app.py` line 203). -/
def round2 (x : ℚ) : ℚ := (roundHalfEven (x * 100) : ℚ) / 100

/-- The MongoDB document built in `process_sensor_data` (`app.py` lines
179-188): six parameter values defaulted to `0`, raw prediction and
confidence, the source tag and the reading's timestamp value. -/
structure Document where
  timestamp : RawValue
  params : List (String × ℚ)
  prediction : ℤ
  confidence : ℚ
  source : String
deriving DecidableEq, Repr

/-- Document construction (`app.py` lines 181-191); any `float` failure on a
present non-numeric field raises, which the inner `try` turns into a logged
skip of the insert. -/
def buildDocument (data : RawReading) (pred : ℤ) (conf : ℚ) (source : String) :
    Except Unit Document :=
  match docParams data with
  | .error e => .error e
  | .ok ps => .ok ⟨(data.lookup "timestamp").getD (.str ""), ps, pred, conf, source⟩

/-- The `response` mapping broadcast to all clients (`app.py` lines 198-211). -/
structure Response where
  sensor_data : RawReading
  prediction : String
  prediction_value : ℤ
  confidence : ℚ
  led_status : String
  thresholds : List (String × Verdict)
  consecutive_count : ℕ
  email_alert_sent : Bool
  timestamp : RawValue
  source : String
deriving DecidableEq, Repr

/-- Static configuration of one pipeline run: the loaded model (or `None`),
the contamination threshold, whether `email_service` and
`readings_collection` are not `None`. -/
structure ProcCfg where
  model : Option ModelFn
  threshold : ℕ
  emailConfigured : Bool
  dbConfigured : Bool

/-- Outcomes of the external calls a single `process_sensor_data` run may
make: the dispatcher's return value (consulted only if it is invoked),
whether `insert_one` succeeds, whether `socketio.emit` succeeds. -/
structure Outcomes where
  dispatchSuccess : Bool
  insertOk : Bool
  emitOk : Bool

/-- Everything one `process_sensor_data` run does that is observable from
outside: the new tracker state and a record of the external effects.
`outerCaught` is true when the outer `except` handler of the function
swallowed an exception (the function still returns normally). -/
structure ProcResult where
  state : TrackerState
  dispatched : Bool
  persistAttempted : Bool
  persisted : Bool
  document : Option Document
  broadcastInvoked : Bool
  broadcast : Option Response
  outerCaught : Bool

/-- Timestamp assignment at the top of `process_sensor_data` (`app.py` lines
167-169): insert the current time if the field is absent. -/
def tsData (data0 : RawReading) (now : String) : RawReading :=
  if (data0.lookup "timestamp").isSome then data0
  else data0 ++ [("timestamp", RawValue.str now)]

/-- Embeds `process_sensor_data` (`app.py` lines 164-219).  In this embedding the
only statement of the `try` body that can raise to the outer handler is
`socketio.emit` (prediction and threshold checking swallow their own errors,
the tracker update cannot raise, and the MongoDB block has its own inner
`try`), so the run always completes the state mutation, and `outerCaught`
records whether the outer handler fired. -/
def process_sensor_data (cfg : ProcCfg) (outc : Outcomes) (s : TrackerState)
    (data0 : RawReading) (source : String) (now : String) : ProcResult :=
  let data := tsData data0 now
  let pc := predict_water_quality cfg.model data
  let thr := check_thresholds data
  let step := handleStep cfg.threshold cfg.emailConfigured s pc.1 outc.dispatchSuccess
  let docE := buildDocument data pc.1 pc.2 source
  let response : Response :=
    ⟨data, labelOf pc.1, pc.1, round2 pc.2,
     if pc.1 = 1 then "green" else "red", thr,
     step.1.count, step.1.alertArmed,
     (data.lookup "timestamp").getD (.str ""), source⟩
  { state := step.1
    dispatched := step.2
    persistAttempted := cfg.dbConfigured
    persisted := cfg.dbConfigured && docE.toOption.isSome && outc.insertOk
    document := if cfg.dbConfigured then docE.toOption else none
    broadcastInvoked := true
    broadcast := some response
    outerCaught := !outc.emitOk }

example : streakAfter [0, 1, 0, 0] = 2 := by decide
example : handleStep 5 true ⟨4, false⟩ 0 true = (⟨5, true⟩, true) := by decide
example : handleStep 5 true ⟨5, true⟩ 0 true = (⟨6, true⟩, false) := by decide
example : handleStep 5 true ⟨9, true⟩ 3 true = (⟨0, false⟩, false) := by decide
example : check_thresholds [("Sulphate", .num 400)] =
    [("Sulphate", ⟨400, 100, 400, true⟩)] := by decide
example : check_thresholds [("Foo", .num 3), ("pH", .str "x")] = [] := by decide

lemma streakAux_cons (k : ℕ) (p : ℤ) (l : List ℤ) :
    streakAux k (p :: l) = streakAux (if p = 0 then k + 1 else 0) l := rfl

lemma streakAux_singleton (k : ℕ) (p : ℤ) :
    streakAux k [p] = if p = 0 then k + 1 else 0 := rfl

/-- With the email service configured and every dispatch succeeding, a step
from the characteristic state `⟨k, k ≥ t⟩` lands in the characteristic state
of the new streak length and dispatches exactly when the streak hits `t`. -/
lemma handleStep_allSuccess (t k : ℕ) (ht : 1 ≤ t) (p : ℤ) :
    handleStep t true ⟨k, decide (t ≤ k)⟩ p true =
      (⟨streakAux k [p], decide (t ≤ streakAux k [p])⟩,
       decide (p = 0 ∧ streakAux k [p] = t)) := by
  rcases eq_or_ne p 0 with hp | hp
  · subst hp
    by_cases h : t ≤ k
    · have h1 : t ≤ k + 1 := Nat.le_succ_of_le h
      have h2 : ¬(k + 1 = t) := by omega
      simp [handleStep, streakAux_singleton, h, h1, h2]
    · by_cases h1 : t ≤ k + 1
      · have h2 : k + 1 = t := by omega
        simp [handleStep, streakAux_singleton, h, h1, h2]
      · have h2 : ¬(k + 1 = t) := by omega
        simp [handleStep, streakAux_singleton, h, h1, h2]
  · have h0 : ¬(t ≤ 0) := by omega
    simp [handleStep, streakAux_singleton, hp, h0]

lemma runTracker_allSuccess_aux (t : ℕ) (ht : 1 ≤ t) (ps : List ℤ) :
    ∀ k : ℕ,
      runTracker t true ⟨k, decide (t ≤ k)⟩ (ps.map fun p => (p, true)) =
        ⟨streakAux k ps, decide (t ≤ streakAux k ps)⟩ := by
  induction ps with
  | nil => intro k; rfl
  | cons p rest ih =>
    intro k
    simp only [List.map_cons, runTracker]
    rw [show (handleStep t true ⟨k, decide (t ≤ k)⟩ p true).1 =
          ⟨streakAux k [p], decide (t ≤ streakAux k [p])⟩ from by
        rw [handleStep_allSuccess t k ht p]]
    rw [ih (streakAux k [p])]
    rfl

lemma initialState_char (t : ℕ) (ht : 1 ≤ t) :
    initialState = (⟨0, decide (t ≤ 0)⟩ : TrackerState) := by
  have : ¬(t ≤ 0) := by omega
  simp [initialState, this]

lemma runTrace_allSuccess_spec (t : ℕ) (ht : 1 ≤ t) (ps : List ℤ) :
    ∀ (k i : ℕ) (st : TrackerState) (b : Bool),
      (runTrace t true ⟨k, decide (t ≤ k)⟩ (ps.map fun p => (p, true)))[i]? =
        some (st, b) →
      (b = true ↔ (ps[i]? = some 0 ∧ streakAux k (ps.take (i + 1)) = t)) := by
  induction ps with
  | nil => intro k i st b h; simp [runTrace] at h
  | cons p rest ih =>
    intro k i st b h
    simp only [List.map_cons, runTrace] at h
    rcases i with _ | j
    · simp only [List.getElem?_cons_zero, Option.some.injEq] at h
      rw [handleStep_allSuccess t k ht p] at h
      injection h with h1 h2
      subst h2
      simp [List.take_succ_cons, streakAux_singleton]
    · simp only [List.getElem?_cons_succ] at h
      rw [show (handleStep t true ⟨k, decide (t ≤ k)⟩ p true).1 =
            ⟨streakAux k [p], decide (t ≤ streakAux k [p])⟩ from by
          rw [handleStep_allSuccess t k ht p]] at h
      have := ih (streakAux k [p]) j st b h
      simpa [List.take_succ_cons, streakAux_cons, streakAux_singleton] using this

/-- C1: the Alert Dispatcher is invoked exactly once per contiguous streak of
Unsafe labels of length ≥ threshold: with the email service configured and
every dispatch reporting success, the dispatcher fires at reading `i` iff the
label at `i` is Unsafe and the contiguous Unsafe streak ending at `i` has
length exactly `threshold`; moreover the tracker state after any sequence is
`⟨streak, streak ≥ threshold⟩`, so the count keeps rising and `alertArmed`
stays true while a long streak continues, and only a Safe label (streak
reset) re-enables a later dispatch. -/
theorem alert_once_per_streak (t : ℕ) (ht : 1 ≤ t) (ps : List ℤ) :
    (∀ (i : ℕ) (st : TrackerState) (b : Bool),
        (runTrace t true initialState (ps.map fun p => (p, true)))[i]? =
          some (st, b) →
        (b = true ↔ (ps[i]? = some 0 ∧ streakAfter (ps.take (i + 1)) = t)))
    ∧ runTracker t true initialState (ps.map fun p => (p, true)) =
        ⟨streakAfter ps, decide (t ≤ streakAfter ps)⟩ := by
  constructor
  · intro i st b h
    rw [initialState_char t ht] at h
    exact runTrace_allSuccess_spec t ht ps 0 i st b h
  · rw [initialState_char t ht]
    exact runTracker_allSuccess_aux t ht ps 0

theorem alert_once_per_streak_witness :
    1 ≤ 2
    ∧ runTracker 2 true initialState ([0, 0, 1, 0, 0].map fun p => (p, true)) =
        ⟨streakAfter [0, 0, 1, 0, 0], decide (2 ≤ streakAfter [0, 0, 1, 0, 0])⟩ :=
  ⟨by decide, (alert_once_per_streak 2 (by decide) [0, 0, 1, 0, 0]).2⟩

/-- C2: a Safe classification label (any non-zero prediction value) resets
`consecutiveUnsafeCount` to 0 and `alertArmed` to false unconditionally,
from every prior tracker state, with no dispatch. -/
theorem safe_reading_resets (t : ℕ) (cfg : Bool) (s : TrackerState) (p : ℤ)
    (d : Bool) (hp : p ≠ 0) :
    handleStep t cfg s p d = (⟨0, false⟩, false) := by
  simp [handleStep, hp]

theorem safe_reading_resets_witness :
    (1 : ℤ) ≠ 0 ∧ handleStep 5 true ⟨7, true⟩ 1 false = (⟨0, false⟩, false) :=
  ⟨by decide, safe_reading_resets 5 true ⟨7, true⟩ 1 false (by decide)⟩

/-- C4: if the dispatcher reports failure at the threshold-crossing reading,
`alertArmed` stays false while the count stays incremented; the next Unsafe
reading invokes the dispatcher again, and a successful dispatch then sets
`alertArmed`; in general `alertArmed` can only become true at a step that
invokes the dispatcher and whose dispatch reports success. -/
theorem dispatch_failure_retry (t : ℕ) (s : TrackerState)
    (hA : s.alertArmed = false) (hc : t ≤ s.count + 1) :
    handleStep t true s 0 false = (⟨s.count + 1, false⟩, true)
    ∧ handleStep t true ⟨s.count + 1, false⟩ 0 true = (⟨s.count + 2, true⟩, true)
    ∧ ∀ (cfg : Bool) (s' : TrackerState) (p : ℤ) (d : Bool),
        s'.alertArmed = false →
        (handleStep t cfg s' p d).1.alertArmed = true →
        (handleStep t cfg s' p d).2 = true ∧ d = true := by
  refine ⟨?_, ?_, ?_⟩
  · simp [handleStep, hA, hc]
  · have hc2 : t ≤ s.count + 1 + 1 := Nat.le_succ_of_le hc
    simp [handleStep, hc2]
  · intro cfg s' p d hA' harm
    rcases eq_or_ne p 0 with hp | hp
    · subst hp
      by_cases hcond : t ≤ s'.count + 1 ∧ s'.alertArmed = false ∧ cfg = true
      · cases d
        · simp [handleStep, hcond, hA'] at harm
        · simp [handleStep, hcond]
      · by_cases hc2 : t ≤ s'.count + 1 ∧ cfg = true
        · exact absurd ⟨hc2.1, hA', hc2.2⟩ hcond
        · simp [handleStep, hA', hc2] at harm
    · simp [handleStep, hp] at harm

theorem dispatch_failure_retry_witness :
    ((⟨4, false⟩ : TrackerState).alertArmed = false ∧ 5 ≤ (⟨4, false⟩ : TrackerState).count + 1)
    ∧ (handleStep 5 true ⟨4, false⟩ 0 false = (⟨5, false⟩, true)
       ∧ handleStep 5 true ⟨5, false⟩ 0 true = (⟨6, true⟩, true)
       ∧ ∀ (cfg : Bool) (s' : TrackerState) (p : ℤ) (d : Bool),
           s'.alertArmed = false →
           (handleStep 5 cfg s' p d).1.alertArmed = true →
           (handleStep 5 cfg s' p d).2 = true ∧ d = true) :=
  ⟨⟨by decide, by decide⟩, dispatch_failure_retry 5 ⟨4, false⟩ (by decide) (by decide)⟩

/-- A step from a state that is armed only above the threshold lands in such
a state again. -/
lemma handleStep_armed_le (t : ℕ) (cfg : Bool) (s : TrackerState) (p : ℤ)
    (d : Bool) (h : s.alertArmed = true → t ≤ s.count) :
    (handleStep t cfg s p d).1.alertArmed = true →
      t ≤ (handleStep t cfg s p d).1.count := by
  intro harm
  rcases eq_or_ne p 0 with hp | hp
  · by_cases hcond : t ≤ s.count + 1 ∧ s.alertArmed = false ∧ cfg = true
    · simp [handleStep, hp, hcond]
    · simp [handleStep, hp, hcond] at harm ⊢
      exact Nat.le_succ_of_le (h harm)
  · simp [handleStep, hp] at harm

lemma runTracker_armed_le (t : ℕ) (cfg : Bool) (inputs : List (ℤ × Bool)) :
    ∀ s : TrackerState, (s.alertArmed = true → t ≤ s.count) →
      (runTracker t cfg s inputs).alertArmed = true →
      t ≤ (runTracker t cfg s inputs).count := by
  induction inputs with
  | nil => intro s h; exact h
  | cons pd rest ih =>
    intro s h
    exact ih (handleStep t cfg s pd.1 pd.2).1 (handleStep_armed_le t cfg s pd.1 pd.2 h)

/-- If a step turns `alertArmed` from false to true, the step's label was
Unsafe, the dispatch was invoked and succeeded, and the incremented count is
at or above the threshold. -/
lemma handleStep_arming (t : ℕ) (cfg : Bool) (s : TrackerState) (p : ℤ)
    (d : Bool) (hA : s.alertArmed = false)
    (harm : (handleStep t cfg s p d).1.alertArmed = true) :
    p = 0 ∧ d = true
      ∧ (handleStep t cfg s p d).1.count = s.count + 1
      ∧ t ≤ (handleStep t cfg s p d).1.count := by
  rcases eq_or_ne p 0 with hp | hp
  · subst hp
    by_cases hcond : t ≤ s.count + 1 ∧ s.alertArmed = false ∧ cfg = true
    · cases d
      · simp [handleStep, hcond, hA] at harm
      · simp [handleStep, hcond]
    · by_cases hc2 : t ≤ s.count + 1 ∧ cfg = true
      · exact absurd ⟨hc2.1, hA, hc2.2⟩ hcond
      · simp [handleStep, hA, hc2] at harm
  · simp [handleStep, hp] at harm

/-- C9: in every state reachable from the initial state, `alertArmed` implies
`consecutiveUnsafeCount ≥ threshold` (so the threshold was reached during the
current streak, and `alertArmed` is never true with count 0), and `alertArmed`
can only turn true at a step whose label is Unsafe, which increments the count
to at or above the threshold with a successful dispatch. -/
theorem armed_invariant (t : ℕ) (ht : 1 ≤ t) (cfg : Bool)
    (inputs : List (ℤ × Bool)) :
    ((runTracker t cfg initialState inputs).alertArmed = true →
        t ≤ (runTracker t cfg initialState inputs).count)
    ∧ ((runTracker t cfg initialState inputs).alertArmed = true →
        (runTracker t cfg initialState inputs).count ≠ 0)
    ∧ ∀ (p : ℤ) (d : Bool),
        (runTracker t cfg initialState inputs).alertArmed = false →
        (handleStep t cfg (runTracker t cfg initialState inputs) p d).1.alertArmed = true →
        p = 0 ∧ d = true
          ∧ (handleStep t cfg (runTracker t cfg initialState inputs) p d).1.count =
              (runTracker t cfg initialState inputs).count + 1
          ∧ t ≤ (handleStep t cfg (runTracker t cfg initialState inputs) p d).1.count := by
  have hbase : initialState.alertArmed = true → t ≤ initialState.count := by
    intro h; simp [initialState] at h
  have h1 := runTracker_armed_le t cfg inputs initialState hbase
  refine ⟨h1, ?_, ?_⟩
  · intro harm
    have := h1 harm
    omega
  · intro p d hA harm
    exact handleStep_arming t cfg _ p d hA harm

theorem armed_invariant_witness :
    1 ≤ 5
    ∧ (((runTracker 5 true initialState [(0, true)]).alertArmed = true →
          5 ≤ (runTracker 5 true initialState [(0, true)]).count)
       ∧ ((runTracker 5 true initialState [(0, true)]).alertArmed = true →
          (runTracker 5 true initialState [(0, true)]).count ≠ 0)
       ∧ ∀ (p : ℤ) (d : Bool),
          (runTracker 5 true initialState [(0, true)]).alertArmed = false →
          (handleStep 5 true (runTracker 5 true initialState [(0, true)]) p d).1.alertArmed = true →
          p = 0 ∧ d = true
            ∧ (handleStep 5 true (runTracker 5 true initialState [(0, true)]) p d).1.count =
                (runTracker 5 true initialState [(0, true)]).count + 1
            ∧ 5 ≤ (handleStep 5 true (runTracker 5 true initialState [(0, true)]) p d).1.count) :=
  ⟨by decide, armed_invariant 5 (by decide) true [(0, true)]⟩

lemma handleStep_noCfg (t : ℕ) (s : TrackerState) (p : ℤ) (d : Bool)
    (hA : s.alertArmed = false) :
    handleStep t false s p d = (⟨if p = 0 then s.count + 1 else 0, false⟩, false) := by
  rcases eq_or_ne p 0 with hp | hp
  · simp [handleStep, hp, hA]
  · simp [handleStep, hp]

lemma runTracker_noCfg (t : ℕ) (inputs : List (ℤ × Bool)) :
    ∀ k : ℕ, runTracker t false ⟨k, false⟩ inputs =
      ⟨streakAux k (inputs.map Prod.fst), false⟩ := by
  induction inputs with
  | nil => intro k; rfl
  | cons pd rest ih =>
    intro k
    simp only [runTracker]
    rw [show (handleStep t false ⟨k, false⟩ pd.1 pd.2).1 =
          ⟨if pd.1 = 0 then k + 1 else 0, false⟩ from by
        rw [handleStep_noCfg t ⟨k, false⟩ pd.1 pd.2 rfl]]
    rw [ih (if pd.1 = 0 then k + 1 else 0)]
    rfl

lemma runTrace_noCfg (t : ℕ) (inputs : List (ℤ × Bool)) :
    ∀ s : TrackerState, s.alertArmed = false →
      ∀ e ∈ runTrace t false s inputs, e.2 = false ∧ e.1.alertArmed = false := by
  induction inputs with
  | nil => intro s hA e he; simp [runTrace] at he
  | cons pd rest ih =>
    intro s hA e he
    rw [runTrace, handleStep_noCfg t s pd.1 pd.2 hA] at he
    rcases List.mem_cons.mp he with he | he
    · subst he; exact ⟨rfl, rfl⟩
    · exact ih _ rfl e he

lemma streakAux_replicate (n : ℕ) : ∀ k : ℕ,
    streakAux k (List.replicate n (0 : ℤ)) = k + n := by
  induction n with
  | zero => intro k; rfl
  | succ m ih =>
    intro k
    rw [List.replicate_succ, streakAux_cons, if_pos rfl, ih (k + 1)]
    omega

/-- C10: with no email service configured, no sequence of readings ever
invokes the dispatcher and `alertArmed` stays false at every step, while the
consecutive-unsafe count still tracks the trailing Unsafe streak, so `n`
consecutive Unsafe readings drive it to `n`, unboundedly past any
threshold. -/
theorem no_notifier_never_alerts (t : ℕ) (inputs : List (ℤ × Bool)) :
    (∀ e ∈ runTrace t false initialState inputs,
        e.2 = false ∧ e.1.alertArmed = false)
    ∧ runTracker t false initialState inputs =
        ⟨streakAfter (inputs.map Prod.fst), false⟩
    ∧ ∀ (n : ℕ) (d : Bool),
        runTracker t false initialState (List.replicate n (0, d)) = ⟨n, false⟩ := by
  refine ⟨runTrace_noCfg t inputs initialState rfl, runTracker_noCfg t inputs 0, ?_⟩
  intro n d
  rw [show initialState = (⟨0, false⟩ : TrackerState) from rfl,
    runTracker_noCfg t _ 0]
  have hm : (List.replicate n ((0 : ℤ), d)).map Prod.fst = List.replicate n (0 : ℤ) := by
    simp
  rw [show streakAux 0 ((List.replicate n ((0 : ℤ), d)).map Prod.fst) = n from by
    rw [hm, streakAux_replicate n 0]
    omega]

theorem no_notifier_never_alerts_witness :
    runTracker 7 false initialState [(0, true), (1, false), (0, false)] =
      ⟨streakAfter ([(0, true), (1, false), (0, false)].map Prod.fst), false⟩ :=
  (no_notifier_never_alerts 7 [(0, true), (1, false), (0, false)]).2.1

/-- A model stub whose underlying call raises on every input. -/
def errModel : ModelFn := fun _ => .error ()

/-- C5: when the classification capability is unavailable (model not loaded)
or any step of the classification raises, `predict_water_quality` returns the
fail-safe `(0, 0.0)` — label Unsafe — and the error is not propagated; it
never yields the Safe label in those cases. -/
theorem classifier_failsafe (data : RawReading) (m : ModelFn) :
    predict_water_quality none data = (0, 0)
    ∧ labelOf (predict_water_quality none data).1 = "Unsafe"
    ∧ (predictCore m data = .error () →
        predict_water_quality (some m) data = (0, 0)
        ∧ labelOf (predict_water_quality (some m) data).1 = "Unsafe") := by
  refine ⟨rfl, rfl, ?_⟩
  intro herr
  constructor <;> simp [predict_water_quality, herr, labelOf]

theorem classifier_failsafe_witness :
    predictCore errModel [] = .error ()
    ∧ (predict_water_quality (some errModel) [] = (0, 0)
       ∧ labelOf (predict_water_quality (some errModel) []).1 = "Unsafe") :=
  ⟨rfl, (classifier_failsafe [] errModel).2.2 rfl⟩

/-- An entry of `lookup` on an association list is a member of the list. -/
lemma mem_of_lookup {α β : Type} [BEq α] [LawfulBEq α] :
    ∀ (l : List (α × β)) (a : α) (b : β), l.lookup a = some b → (a, b) ∈ l := by
  intro l
  induction l with
  | nil => intro a b h; simp [List.lookup] at h
  | cons kv rest ih =>
    intro a b h
    rcases kv with ⟨k, v⟩
    rw [List.lookup_cons] at h
    rcases hb : a == k with _ | _
    · rw [hb] at h
      exact List.mem_cons_of_mem _ (ih a b h)
    · rw [hb] at h
      injection h with h1
      subst h1
      have : a = k := by simpa using hb
      subst this
      exact List.mem_cons_self _ _

/-- Every configured safe range has `min ≤ max`. -/
lemma SAFE_RANGES_min_le_max (p : String) (mn mx : ℚ)
    (h : SAFE_RANGES.lookup p = some (mn, mx)) : mn ≤ mx := by
  have hm := mem_of_lookup SAFE_RANGES p (mn, mx) h
  simp only [SAFE_RANGES, List.mem_cons, List.not_mem_nil, or_false,
    Prod.mk.injEq] at hm
  rcases hm with ⟨_, h1, h2⟩ | ⟨_, h1, h2⟩ | ⟨_, h1, h2⟩ | ⟨_, h1, h2⟩
    | ⟨_, h1, h2⟩ | ⟨_, h1, h2⟩ <;>
    (subst h1; subst h2; norm_num)

/-- Characterization of a successful loop-body evaluation. -/
lemma thresholdEntry_eq_some (pv : String × RawValue) (p : String) (vd : Verdict)
    (h : thresholdEntry pv = some (p, vd)) :
    pv.1 = p
    ∧ SAFE_RANGES.lookup p = some (vd.safe_min, vd.safe_max)
    ∧ floatOf pv.2 = some vd.value
    ∧ vd.is_safe = decide (vd.safe_min ≤ vd.value ∧ vd.value ≤ vd.safe_max) := by
  unfold thresholdEntry at h
  split at h
  · simp at h
  · rename_i r hr
    split at h
    · simp at h
    · rename_i hts
      split at h
      · simp at h
      · rename_i v hv
        injection h with h1
        injection h1 with hp hvd
        subst hp
        subst hvd
        exact ⟨rfl, hr, hv, rfl⟩

/-- C7: every verdict produced by the Threshold Evaluator carries its
configured range and satisfies `is_safe = (safe_min ≤ value ∧ value ≤
safe_max)` with closed-interval comparison; a value exactly equal to
`safe_min` or `safe_max` is reported safe; a parameter without a configured
safe range never produces an entry. -/
theorem threshold_evaluator_spec :
    (∀ (data : RawReading) (p : String) (vd : Verdict),
        (p, vd) ∈ check_thresholds data →
        vd.is_safe = decide (vd.safe_min ≤ vd.value ∧ vd.value ≤ vd.safe_max)
        ∧ SAFE_RANGES.lookup p = some (vd.safe_min, vd.safe_max))
    ∧ (∀ (data : RawReading) (p : String), SAFE_RANGES.lookup p = none →
        ∀ vd : Verdict, (p, vd) ∉ check_thresholds data)
    ∧ (∀ (p : String) (mn mx v : ℚ), SAFE_RANGES.lookup p = some (mn, mx) →
        v = mn ∨ v = mx →
        check_thresholds [(p, RawValue.num v)] = [(p, ⟨v, mn, mx, true⟩)]) := by
  refine ⟨?_, ?_, ?_⟩
  · intro data p vd h
    rcases List.mem_filterMap.mp h with ⟨pv, _, hf⟩
    rcases thresholdEntry_eq_some pv p vd hf with ⟨_, h2, _, h4⟩
    exact ⟨h4, h2⟩
  · intro data p hnone vd h
    rcases List.mem_filterMap.mp h with ⟨pv, _, hf⟩
    rcases thresholdEntry_eq_some pv p vd hf with ⟨_, h2, _, _⟩
    rw [hnone] at h2
    exact Option.noConfusion h2
  · intro p mn mx v hr hv
    have hts : p ≠ "timestamp" := by
      rintro rfl
      rw [show SAFE_RANGES.lookup "timestamp" = none from rfl] at hr
      exact Option.noConfusion hr
    have hsafe : decide (mn ≤ v ∧ v ≤ mx) = true := by
      have hle := SAFE_RANGES_min_le_max p mn mx hr
      rcases hv with rfl | rfl <;> simp [hle]
    simp only [check_thresholds, List.filterMap_cons, List.filterMap_nil]
    rw [show thresholdEntry (p, RawValue.num v) = some (p, ⟨v, mn, mx, true⟩) from by
      unfold thresholdEntry
      simp only [hr]
      rw [if_neg hts]
      simp [floatOf, hsafe]]

theorem threshold_evaluator_spec_witness :
    SAFE_RANGES.lookup "Sulphate" = some (100, 400)
    ∧ check_thresholds [("Sulphate", RawValue.num 400)] =
        [("Sulphate", ⟨400, 100, 400, true⟩)] :=
  ⟨by decide,
   threshold_evaluator_spec.2.2 "Sulphate" 100 400 400 (by decide) (Or.inr rfl)⟩

/-- C8: the broadcast step is always invoked, with a payload that does not
depend on the outcome of the persistence step (an insert failure is confined
to its inner handler), and no persistence or broadcast failure aborts the
in-flight call: the run always completes the tracker mutation, and a
broadcast failure is absorbed by the outer handler (`outerCaught`) instead
of propagating. -/
theorem persist_broadcast_isolation (cfg : ProcCfg) (outc : Outcomes)
    (s : TrackerState) (data0 : RawReading) (source now : String) :
    (process_sensor_data cfg outc s data0 source now).broadcastInvoked = true
    ∧ (process_sensor_data cfg outc s data0 source now).broadcast.isSome = true
    ∧ (process_sensor_data cfg ⟨outc.dispatchSuccess, false, outc.emitOk⟩
          s data0 source now).broadcast
        = (process_sensor_data cfg ⟨outc.dispatchSuccess, true, outc.emitOk⟩
          s data0 source now).broadcast
    ∧ (process_sensor_data cfg outc s data0 source now).state
        = (handleStep cfg.threshold cfg.emailConfigured s
            (predict_water_quality cfg.model (tsData data0 now)).1
            outc.dispatchSuccess).1
    ∧ (process_sensor_data cfg ⟨outc.dispatchSuccess, outc.insertOk, false⟩
          s data0 source now).outerCaught = true
    ∧ (process_sensor_data cfg ⟨outc.dispatchSuccess, outc.insertOk, false⟩
          s data0 source now).state
        = (process_sensor_data cfg ⟨outc.dispatchSuccess, outc.insertOk, true⟩
          s data0 source now).state :=
  ⟨rfl, rfl, rfl, rfl, rfl, rfl⟩

/-- A model stub that would classify any feature vector as Safe with full
confidence; used to show fail-safe paths do not depend on the model. -/
def okModel : ModelFn := fun _ => .ok (1, [1])

/-- A reading whose required field `pH` carries a non-numeric value. -/
def badReading : RawReading := [("pH", RawValue.str "abc")]

/-- C3 counterexample: processing the malformed reading `{pH: "abc"}` is not
rejected without state mutation — from the initial state the contamination
counter increments to 1, and from count 4 (threshold 5, service configured)
it even dispatches an alert for that input. -/
theorem malformed_reading_cex :
    (process_sensor_data ⟨some okModel, 5, true, true⟩ ⟨true, true, true⟩
        initialState badReading "API" "t0").state = ⟨1, false⟩
    ∧ (⟨1, false⟩ : TrackerState) ≠ initialState
    ∧ (process_sensor_data ⟨some okModel, 5, true, true⟩ ⟨true, true, true⟩
        ⟨4, false⟩ badReading "API" "t0").dispatched = true :=
  ⟨by decide, by decide, by decide⟩

lemma getFloat_error_default (data : RawReading) (n : String) (d d' : ℚ)
    (h : getFloat data n d = .error ()) : getFloat data n d' = .error () := by
  unfold getFloat at h ⊢
  cases hl : data.lookup n with
  | none => rw [hl] at h; simp at h
  | some rv =>
    rw [hl] at h
    cases hv : floatOf rv with
    | none => simp [hv]
    | some q => simp [hv] at h

/-- A `getFloats` failure depends only on the field names, not the defaults. -/
lemma getFloats_error_names :
    ∀ (l₁ l₂ : List (String × ℚ)), l₁.map Prod.fst = l₂.map Prod.fst →
      ∀ data, getFloats data l₁ = .error () → getFloats data l₂ = .error () := by
  intro l₁
  induction l₁ with
  | nil => intro l₂ hmap data h; simp [getFloats] at h
  | cons nd rest ih =>
    intro l₂ hmap data h
    rcases l₂ with _ | ⟨nd₂, rest₂⟩
    · simp at hmap
    · simp only [List.map_cons, List.cons.injEq] at hmap
      obtain ⟨hn, hrest⟩ := hmap
      rcases hv : getFloat data nd.1 nd.2 with u | v
      · cases u
        have hv₂ : getFloat data nd₂.1 nd₂.2 = .error () := by
          rw [← hn]
          exact getFloat_error_default data nd.1 nd.2 nd₂.2 hv
        simp [getFloats, hv₂]
      · rcases hq : getFloats data rest with u | vs
        · cases u
          have h₂ := ih rest₂ hrest data hq
          rcases hv₂ : getFloat data nd₂.1 nd₂.2 with u₂ | v₂
          · cases u₂
            simp [getFloats, hv₂]
          · simp [getFloats, hv₂, h₂]
        · simp [getFloats, hv, hq] at h

lemma mlParams_error_of_extractFeatures (data : RawReading)
    (h : extractFeatures data = .error ()) : mlParams data = .error () := by
  unfold extractFeatures at h
  cases hm : mlParams data with
  | error e => cases e; rfl
  | ok ps => rw [hm] at h; simp at h

lemma handleStep_unsafe_count (t : ℕ) (cfg : Bool) (s : TrackerState)
    (d : Bool) : (handleStep t cfg s 0 d).1.count = s.count + 1 := by
  unfold handleStep
  split
  · split <;> rfl
  · simp at *

/-- C3 amended: a malformed reading (a required field whose value makes
feature extraction raise) is not rejected and causes no caller-visible
failure; instead the classifier fail-safes it to `(0, 0.0)` (Unsafe), the
tracker is updated exactly as for an Unsafe reading (count increments, a
dispatch may occur), the reading is not persisted (the document build fails
inside its inner handler), and the broadcast step still runs. -/
theorem malformed_reading_failsafe (cfg : ProcCfg) (outc : Outcomes)
    (s : TrackerState) (data0 : RawReading) (source now : String)
    (hmal : extractFeatures (tsData data0 now) = .error ()) :
    predict_water_quality cfg.model (tsData data0 now) = (0, 0)
    ∧ (process_sensor_data cfg outc s data0 source now).state =
        (handleStep cfg.threshold cfg.emailConfigured s 0 outc.dispatchSuccess).1
    ∧ (process_sensor_data cfg outc s data0 source now).state.count = s.count + 1
    ∧ (process_sensor_data cfg outc s data0 source now).persisted = false
    ∧ (process_sensor_data cfg outc s data0 source now).broadcastInvoked = true
    ∧ (process_sensor_data cfg outc s data0 source now).outerCaught = !outc.emitOk := by
  have hpred : predict_water_quality cfg.model (tsData data0 now) = (0, 0) := by
    cases hm : cfg.model with
    | none => rfl
    | some m =>
      have hcore : predictCore m (tsData data0 now) = .error () := by
        unfold predictCore
        rw [hmal]
      simp [predict_water_quality, hcore]
  have hdoc : docParams (tsData data0 now) = .error () := by
    exact getFloats_error_names featureDefaults docDefaults (by decide) _
      (mlParams_error_of_extractFeatures _ hmal)
  have hbuild : buildDocument (tsData data0 now)
      (predict_water_quality cfg.model (tsData data0 now)).1
      (predict_water_quality cfg.model (tsData data0 now)).2 source = .error () := by
    unfold buildDocument
    rw [hdoc]
  refine ⟨hpred, ?_, ?_, ?_, rfl, rfl⟩
  · show (handleStep cfg.threshold cfg.emailConfigured s
        (predict_water_quality cfg.model (tsData data0 now)).1
        outc.dispatchSuccess).1 = _
    rw [hpred]
  · show (handleStep cfg.threshold cfg.emailConfigured s
        (predict_water_quality cfg.model (tsData data0 now)).1
        outc.dispatchSuccess).1.count = _
    rw [hpred]
    exact handleStep_unsafe_count _ _ _ _
  · show (cfg.dbConfigured
        && (buildDocument (tsData data0 now)
            (predict_water_quality cfg.model (tsData data0 now)).1
            (predict_water_quality cfg.model (tsData data0 now)).2 source).toOption.isSome
        && outc.insertOk) = false
    rw [hbuild]
    simp [Except.toOption]

theorem malformed_reading_failsafe_witness :
    extractFeatures (tsData badReading "t0") = .error ()
    ∧ (predict_water_quality (some okModel) (tsData badReading "t0") = (0, 0)
       ∧ (process_sensor_data ⟨some okModel, 5, true, true⟩ ⟨true, true, true⟩
            initialState badReading "API" "t0").state =
          (handleStep 5 true initialState 0 true).1
       ∧ (process_sensor_data ⟨some okModel, 5, true, true⟩ ⟨true, true, true⟩
            initialState badReading "API" "t0").state.count = initialState.count + 1
       ∧ (process_sensor_data ⟨some okModel, 5, true, true⟩ ⟨true, true, true⟩
            initialState badReading "API" "t0").persisted = false
       ∧ (process_sensor_data ⟨some okModel, 5, true, true⟩ ⟨true, true, true⟩
            initialState badReading "API" "t0").broadcastInvoked = true
       ∧ (process_sensor_data ⟨some okModel, 5, true, true⟩ ⟨true, true, true⟩
            initialState badReading "API" "t0").outerCaught = !true) :=
  ⟨rfl,
   malformed_reading_failsafe ⟨some okModel, 5, true, true⟩ ⟨true, true, true⟩
     initialState badReading "API" "t0" rfl⟩

/-- A reading in which the `pH` parameter is absent. -/
def noPHReading : RawReading := [("Sulphate", RawValue.num 200)]

/-- C6 counterexample: for a reading without `pH`, the classifier adapter
observes the nominal default 7 while the persisted document observes 0 for
the very same parameter, so consumers do not see one defaulted value applied
at construction time. -/
theorem defaults_divergence_cex :
    mlParams noPHReading = .ok
      [("pH", 7), ("Sulphate", 200), ("Hardness", 165),
       ("Conductivity", 500), ("TDS", 600), ("Turbidity", 3)]
    ∧ docParams noPHReading = .ok
      [("pH", 0), ("Sulphate", 200), ("Hardness", 0),
       ("Conductivity", 0), ("TDS", 0), ("Turbidity", 0)]
    ∧ (7 : ℚ) ≠ 0 :=
  ⟨rfl, rfl, by decide⟩

lemma getFloats_mem_of_absent (data : RawReading) :
    ∀ (l : List (String × ℚ)) (p : String) (d : ℚ), (p, d) ∈ l →
      data.lookup p = none →
      ∀ ps, getFloats data l = .ok ps → (p, d) ∈ ps := by
  intro l
  induction l with
  | nil => intro p d hm; simp at hm
  | cons nd rest ih =>
    intro p d hm habs ps hok
    rcases hv : getFloat data nd.1 nd.2 with u | v
    · simp [getFloats, hv] at hok
    · rcases hq : getFloats data rest with u | vs
      · simp [getFloats, hv, hq] at hok
      · simp only [getFloats, hv, hq] at hok
        injection hok with hok
        subst hok
        rcases List.mem_cons.mp hm with he | hrest
        · have hnd : nd = (p, d) := he.symm
          subst hnd
          have hvd : v = d := by
            unfold getFloat at hv
            rw [habs] at hv
            injection hv with hv
            exact hv.symm
          subst hvd
          exact List.mem_cons_self _ _
        · exact List.mem_cons_of_mem _ (ih p d hrest habs vs hq)

lemma mem_docDefaults_of_featureDefaults (p : String) (d : ℚ)
    (h : (p, d) ∈ featureDefaults) : (p, (0 : ℚ)) ∈ docDefaults := by
  simp only [featureDefaults, List.mem_cons, List.not_mem_nil, or_false,
    Prod.mk.injEq] at h
  rcases h with ⟨h1, _⟩ | ⟨h1, _⟩ | ⟨h1, _⟩ | ⟨h1, _⟩ | ⟨h1, _⟩ | ⟨h1, _⟩ <;>
    (subst h1; simp [docDefaults])

lemma lookup_none_not_mem {α β : Type} [BEq α] [LawfulBEq α] :
    ∀ (l : List (α × β)) (a : α), l.lookup a = none →
      ∀ b : β, (a, b) ∉ l := by
  intro l
  induction l with
  | nil => intro a _ b hmem; simp at hmem
  | cons kv rest ih =>
    intro a h b hmem
    rcases kv with ⟨k, v⟩
    rw [List.lookup_cons] at h
    rcases hb : (a == k) with _ | _
    · rw [hb] at h
      rcases List.mem_cons.mp hmem with he | hm
      · have : a = k := (Prod.mk.injEq _ _ _ _ |>.mp he).1
        rw [this] at hb
        simp at hb
      · exact ih a h b hm
    · rw [hb] at h
      exact Option.noConfusion h

lemma check_thresholds_key_mem (data : RawReading) (p : String) (vd : Verdict)
    (h : (p, vd) ∈ check_thresholds data) : ∃ rv, (p, rv) ∈ data := by
  rcases List.mem_filterMap.mp h with ⟨pv, hmem, hf⟩
  rcases thresholdEntry_eq_some pv p vd hf with ⟨hp, _, _, _⟩
  refine ⟨pv.2, ?_⟩
  rw [← hp]
  simpa using hmem

/-- C6 amended: missing numeric parameters are defaulted per consumer, not
once at Reading-construction time: for a parameter absent from the input,
the classifier adapter observes the nominal default from its own table
(pH→7.0, Sulphate→250, Hardness→165, Conductivity→500, TDS→600,
Turbidity→3.0), the persisted document observes 0, and the threshold
evaluator produces no entry at all for it. -/
theorem per_consumer_defaults (data : RawReading) (p : String) (d : ℚ)
    (hmem : (p, d) ∈ featureDefaults) (habs : data.lookup p = none) :
    (∀ ps, mlParams data = .ok ps → (p, d) ∈ ps)
    ∧ (∀ qs, docParams data = .ok qs → (p, (0 : ℚ)) ∈ qs)
    ∧ ∀ vd : Verdict, (p, vd) ∉ check_thresholds data := by
  refine ⟨?_, ?_, ?_⟩
  · intro ps hok
    exact getFloats_mem_of_absent data featureDefaults p d hmem habs ps hok
  · intro qs hok
    exact getFloats_mem_of_absent data docDefaults p 0
      (mem_docDefaults_of_featureDefaults p d hmem) habs qs hok
  · intro vd h
    rcases check_thresholds_key_mem data p vd h with ⟨rv, hrv⟩
    exact lookup_none_not_mem data p habs rv hrv

theorem per_consumer_defaults_witness :
    (("pH", (7 : ℚ)) ∈ featureDefaults ∧ noPHReading.lookup "pH" = none)
    ∧ ((∀ ps, mlParams noPHReading = .ok ps → ("pH", (7 : ℚ)) ∈ ps)
       ∧ (∀ qs, docParams noPHReading = .ok qs → ("pH", (0 : ℚ)) ∈ qs)
       ∧ ∀ vd : Verdict, ("pH", vd) ∉ check_thresholds noPHReading) :=
  ⟨⟨by decide, by decide⟩,
   per_consumer_defaults noPHReading "pH" 7 (by decide) (by decide)⟩

end WaterQuality
